import Mathlib

/-!
Verification development for the YazWho MusicJam Empire Dashboard repository.

The repository under `src/` contains the React frontend (`frontend/src/App.js`
and an unnamed frontend variant) together with documentation; the FastAPI
backend (`backend/server.py`) is referenced by the documentation but its code
is not part of the repository snapshot.  Backend behaviour (command
classification, execution gating, jam-session status derivation, genre
filtering, CRUD storage) is therefore modelled from the specification, and
each such definition is marked `Modelled from the spec:` in its doc comment.
Frontend handlers are embedded directly from the JavaScript source.
-/

/- ### Command classifier (backend, modelled from the spec) -/

/-- Safety levels drawn from the fixed set named by the spec. -/
inductive SafetyLevel
  | safe
  | caution
  | dangerous
deriving DecidableEq, Repr

/-- Boolean substring test on character lists: `isSubstrOf needle hay` holds
when `needle` occurs contiguously inside `hay`. -/
def isSubstrOf (needle : List Char) : List Char → Bool
  | [] => needle.isEmpty
  | c :: t => List.isPrefixOf needle (c :: t) || isSubstrOf needle t

/-- One row of the classifier's fixed keyword table: the keywords that
trigger it, the candidate shell command it suggests, and its safety tag. -/
structure PatternEntry where
  keywords : List String
  command : String
  safety : SafetyLevel
deriving DecidableEq, Repr

/-- Modelled from the spec: the recognized destructive keywords (deleting
files) of the classifier's "file operations" category.  The backend
`server.py` holding the real table is not in the repository snapshot. -/
def destructiveKeywords : List String := ["delete", "remove file", "rm -rf"]

/-- Modelled from the spec: the classifier's fixed keyword table, covering the
categories the spec names ("check process status," "restart service,"
"view logs," "file operations"), with destructive file operations tagged
dangerous.  The backend `server.py` holding the real table is not in the
repository snapshot. -/
def commandPatterns : List PatternEntry :=
  [ ⟨["process status", "check process", "is running"], "ps aux", SafetyLevel.safe⟩,
    ⟨["restart service", "restart the backend"], "sudo supervisorctl restart all", SafetyLevel.caution⟩,
    ⟨["view logs", "show logs"], "tail -n 100 /var/log/supervisor/backend.out.log", SafetyLevel.safe⟩,
    ⟨["list files", "show files"], "ls -la", SafetyLevel.safe⟩,
    ⟨destructiveKeywords, "rm -rf", SafetyLevel.dangerous⟩ ]

/-- The characters of a string lowered one by one, the form in which the
classifier matches its keywords case-insensitively. -/
def lowerChars (s : String) : List Char :=
  s.toList.map Char.toLower

/-- Modelled from the spec: fixed substring/keyword matching of the lowered
input against the table, producing the ordered candidate list of commands
tagged with safety levels. -/
def classifyCandidates (input : String) : List (String × SafetyLevel) :=
  (commandPatterns.filter
      (fun p => p.keywords.any (fun kw => isSubstrOf kw.toList (lowerChars input)))).map
    (fun p => (p.command, p.safety))

/-- The classifier's overall result: the candidate list and a status string. -/
structure ClassifyResult where
  candidates : List (String × SafetyLevel)
  status : String
deriving DecidableEq, Repr

/-- Modelled from the spec: the classifier returns the matched candidates, or
an empty list with a generic "unable to classify" status when nothing
matches; there is no retry and no partial-success output. -/
def classifyRequest (input : String) : ClassifyResult :=
  let cs := classifyCandidates input
  if cs.isEmpty then ⟨[], "unable to classify"⟩ else ⟨cs, "classified"⟩

/-- The safety tag attached to a whole request: the worst safety level among
its candidate commands (`safe` only when no candidate is worse). -/
def requestSafety (cands : List (String × SafetyLevel)) : SafetyLevel :=
  if cands.any (fun c => c.2 == SafetyLevel.dangerous) then SafetyLevel.dangerous
  else if cands.any (fun c => c.2 == SafetyLevel.caution) then SafetyLevel.caution
  else SafetyLevel.safe

/- ### Execution gate (backend, modelled from the spec) -/

/-- Outcome of running the classified candidates through the execution gate:
which candidates were executed, and which were reported back without being
run. -/
structure ExecOutcome where
  executed : List (String × SafetyLevel)
  reported : List (String × SafetyLevel)
deriving DecidableEq, Repr

/-- Modelled from the spec: the `/api/ai/execute-command` gate of the missing
`backend/server.py`.  Only commands flagged safe, or non-dangerous commands
explicitly confirmed by the caller, proceed; dangerous commands are reported
but never run. -/
def executeCommandGate (cands : List (String × SafetyLevel)) (confirmed : Bool) : ExecOutcome :=
  { executed := cands.filter
      (fun c => c.2 == SafetyLevel.safe || (confirmed && !(c.2 == SafetyLevel.dangerous))),
    reported := cands.filter (fun c => c.2 == SafetyLevel.dangerous) }

/- ### Jam sessions: data model, status derivation, genre filtering -/

/-- The JamSession record of the data model: flat fields, with times
expressed in minutes so that the backend's date comparison can be stated. -/
structure JamSession where
  id : String
  title : String
  description : String
  location : String
  participants : Option Nat
  startMinute : Nat
  endMinute : Nat
  skillLevel : String
  genres : List String
deriving DecidableEq, Repr

/-- The derived jam-session status values. -/
inductive SessionStatus
  | upcoming
  | ongoing
  | completed
deriving DecidableEq, Repr

/-- Modelled from the spec: the backend derives a session's status by
comparing the current time against the session's date/start/end — before the
start it is upcoming, between start and end it is ongoing, after the end it
is completed.  The backend `server.py` holding the real derivation is not in
the repository snapshot. -/
def deriveStatus (startMinute endMinute now : Nat) : SessionStatus :=
  if now < startMinute then SessionStatus.upcoming
  else if now ≤ endMinute then SessionStatus.ongoing
  else SessionStatus.completed

/-- Position of a status in the forward order upcoming → ongoing → completed. -/
def statusRank : SessionStatus → Nat
  | SessionStatus.upcoming => 0
  | SessionStatus.ongoing => 1
  | SessionStatus.completed => 2

/-- Modelled from the spec: the backend's genre filter behind
`GET /api/musicjam/jam-sessions?genre=...` keeps exactly the sessions whose
genre set contains the requested genre (the frontend sends one genre, so
intersecting the filter means containing it). -/
def filterByGenre (sessions : List JamSession) (genre : String) : List JamSession :=
  sessions.filter (fun s => s.genres.contains genre)

/- ### Jam-session creation form (frontend `MusicJam` component) -/

/-- The creation form's data, mirroring the `formData` state object of the
`MusicJam` component (all inputs are strings; `genres` is a string list). -/
structure JamForm where
  title : String
  description : String
  location : String
  participants : String
  date : String
  startTimeField : String
  endTimeField : String
  skillLevel : String
  genres : List String
deriving DecidableEq, Repr

/-- The literal the component resets `formData` to after a successful
submission (and starts with): every text field empty, skill level
"All Levels", no genres. -/
def emptyJamForm : JamForm :=
  ⟨"", "", "", "", "", "", "", "All Levels", []⟩

/-- The `MusicJam` component state touched by `handleCreateJamSession`. -/
structure MusicJamFormState where
  showCreateForm : Bool
  formData : JamForm
  loading : Bool
deriving DecidableEq, Repr

/-- How the awaited `fetch` of the submission settles: an ok HTTP response,
a non-ok HTTP response (`response.ok` false), or a thrown error. -/
inductive SubmitOutcome
  | okResp
  | httpError
  | netError
deriving DecidableEq, Repr

/-- The observable effects of one run of `handleCreateJamSession`: how many
submission POSTs it made, how many `fetchJamSessions` refreshes it
triggered, and the alerts it showed, in order. -/
structure SubmitEffects where
  posts : Nat
  refreshes : Nat
  alerts : List String
deriving DecidableEq, Repr

/-- Embedding of `handleCreateJamSession` (unnamed frontend file, lines
382–406): set loading, POST the form once, then — only when `response.ok` —
alert success, hide the form, reset the fields and refresh the session list;
a thrown error alerts failure; loading is cleared on every path.  A non-ok
response takes no action inside the `try` block. -/
def handleCreateJamSession (st : MusicJamFormState) : SubmitOutcome → MusicJamFormState × SubmitEffects
  | SubmitOutcome.okResp =>
      ({ showCreateForm := false, formData := emptyJamForm, loading := false },
       { posts := 1, refreshes := 1, alerts := ["🎸 Jam session created successfully!"] })
  | SubmitOutcome.httpError =>
      ({ st with loading := false },
       { posts := 1, refreshes := 0, alerts := [] })
  | SubmitOutcome.netError =>
      ({ st with loading := false },
       { posts := 1, refreshes := 0, alerts := ["Failed to create jam session!"] })

/-- Embedding of `handleGenreToggle` (unnamed frontend file, lines 408–415):
`prev.genres.includes(genre) ? prev.genres.filter(g => g !== genre)
: [...prev.genres, genre]`. -/
def handleGenreToggle (genres : List String) (genre : String) : List String :=
  if genres.contains genre then genres.filter (fun g => g != genre)
  else genres ++ [genre]

/- ### Persistence shim and CRUD records (backend, modelled from the spec) -/

/-- The Project record of the data model. -/
structure Project where
  id : String
  name : String
  repositoryUrl : String
  status : String
  deploymentUrl : Option String
  createdAt : String
deriving DecidableEq, Repr

/-- The Enhancement record of the data model. -/
structure Enhancement where
  id : String
  featureName : String
  enhancementType : String
  aiSuggestion : String
  implementationStatus : String
  createdAt : String
deriving DecidableEq, Repr

/-- The Playlist record of the data model. -/
structure Playlist where
  id : String
  title : String
  description : String
  tabs : List String
  createdAt : String
deriving DecidableEq, Repr

/-- The DeploymentRecord record of the data model. -/
structure DeploymentRecord where
  id : String
  repositoryName : String
  deploymentType : String
  status : String
  timestamp : String
deriving DecidableEq, Repr

/-- Modelled from the spec: the persistence shim's collections are simple
keyed storage, here an association list from id to record.  The backend
`server.py` holding the real database calls is not in the repository
snapshot. -/
def createRecord {α : Type} (db : List (String × α)) (id : String) (rec : α) : List (String × α) :=
  (id, rec) :: db

/-- Modelled from the spec: a CRUD read endpoint performs one query by id
against the collection and returns the stored record, if any. -/
def getRecord {α : Type} (db : List (String × α)) (id : String) : Option α :=
  (db.find? (fun p => p.1 == id)).map (fun p => p.2)

/- ### Top-level App fetch handlers (frontend `App.js`, lines 19–59) -/

/-- How an awaited `fetch` + `response.json()` pair settles in a handler:
parsed data, or a thrown error caught by the handler's `catch`. -/
inductive FetchResult (α : Type)
  | success (data : α)
  | failure
deriving DecidableEq, Repr

/-- The top-level `App` component's displayed state: the empire overview,
the three lists, and the initial loading flag. -/
structure AppState where
  empireStatus : Option String
  projects : List String
  enhancements : List String
  repositories : List String
  loading : Bool
deriving DecidableEq, Repr

/-- Embedding of `fetchEmpireOverview` (`App.js` lines 19–29): on success
store the parsed overview and clear loading; the `catch` branch only logs
and clears loading. -/
def fetchEmpireOverview (st : AppState) : FetchResult String → AppState
  | FetchResult.success d => { st with empireStatus := some d, loading := false }
  | FetchResult.failure => { st with loading := false }

/-- Embedding of `fetchProjects` (`App.js` lines 31–39): on success store
`data.projects || []`; the `catch` branch only logs. -/
def fetchProjects (st : AppState) : FetchResult (Option (List String)) → AppState
  | FetchResult.success d => { st with projects := d.getD [] }
  | FetchResult.failure => st

/-- Embedding of `fetchEnhancements` (`App.js` lines 41–49): on success store
`data.enhancements || []`; the `catch` branch only logs. -/
def fetchEnhancements (st : AppState) : FetchResult (Option (List String)) → AppState
  | FetchResult.success d => { st with enhancements := d.getD [] }
  | FetchResult.failure => st

/-- Embedding of `fetchRepositories` (`App.js` lines 51–59): on success store
`data.repositories || []`; the `catch` branch only logs. -/
def fetchRepositories (st : AppState) : FetchResult (Option (List String)) → AppState
  | FetchResult.success d => { st with repositories := d.getD [] }
  | FetchResult.failure => st

/- ### Deployment Center quick-action counts (frontend, `DeploymentCenter`) -/

/-- Embedding of the quick-action count expressions (`App.js` lines 686–711):
`enhancements.filter(e => e.implementation_status === s).length` for a
status string `s`. -/
def countByStatus (es : List Enhancement) (s : String) : Nat :=
  (es.filter (fun e => e.implementationStatus == s)).length

/-- A concrete enhancement list exercising all three implementation
statuses. -/
def sampleEnhancements : List Enhancement :=
  [ ⟨"e1", "live-chat", "social-feature", "add chat", "planned", "2025-05-25"⟩,
    ⟨"e2", "tab-sync", "playlist-feature", "sync tabs", "implementing", "2025-05-25"⟩,
    ⟨"e3", "genre-radar", "discovery", "radar view", "deployed", "2025-05-25"⟩,
    ⟨"e4", "dark-mode", "ui", "dark theme", "planned", "2025-05-25"⟩ ]

/- ### Theorems -/

/-- Helper: the file-deletion pattern's candidate is among the classifier's
candidates whenever a destructive keyword occurs in the lowered input. -/
theorem dangerous_candidate_mem (input : String)
    (h : destructiveKeywords.any
        (fun kw => isSubstrOf kw.toList (lowerChars input)) = true) :
    ("rm -rf", SafetyLevel.dangerous) ∈ classifyCandidates input := by
  have hp : (⟨destructiveKeywords, "rm -rf", SafetyLevel.dangerous⟩ : PatternEntry) ∈
      commandPatterns.filter
        (fun p => p.keywords.any (fun kw => isSubstrOf kw.toList (lowerChars input))) := by
    apply List.mem_filter.mpr
    refine ⟨?_, h⟩
    simp [commandPatterns]
  exact List.mem_map_of_mem _ hp

/-- Claim C1: any input containing a recognized destructive keyword is tagged
with a safety level other than safe; no such input is ever classified
safe. -/
theorem destructive_input_never_safe (input : String)
    (h : destructiveKeywords.any
        (fun kw => isSubstrOf kw.toList (lowerChars input)) = true) :
    requestSafety (classifyRequest input).candidates ≠ SafetyLevel.safe := by
  have hmem := dangerous_candidate_mem input h
  have hany : (classifyCandidates input).any (fun c => c.2 == SafetyLevel.dangerous) = true :=
    List.any_eq_true.mpr ⟨_, hmem, rfl⟩
  have hne : classifyCandidates input ≠ [] := List.ne_nil_of_mem hmem
  have hreq : (classifyRequest input).candidates = classifyCandidates input := by
    simp only [classifyRequest, List.isEmpty_eq_false.mpr hne, Bool.false_eq_true,
      if_false]
  rw [hreq]
  unfold requestSafety
  rw [if_pos hany]
  exact fun hcontra => SafetyLevel.noConfusion hcontra

/-- Witness for C1 at the concrete input "Please delete all temp files". -/
theorem destructive_input_never_safe_witness :
    destructiveKeywords.any
        (fun kw => isSubstrOf kw.toList (lowerChars "Please delete all temp files")) = true ∧
      requestSafety (classifyRequest "Please delete all temp files").candidates ≠
        SafetyLevel.safe :=
  ⟨by decide, destructive_input_never_safe "Please delete all temp files" (by decide)⟩

/-- Claim C7: an input matching none of the keyword patterns yields the empty
candidate list with the generic "unable to classify" result (the classifier
is a single-shot pure function: no retry, no partial success). -/
theorem unrecognized_input_unable_to_classify (input : String)
    (h : commandPatterns.all
        (fun p => p.keywords.all
          (fun kw => !(isSubstrOf kw.toList (lowerChars input)))) = true) :
    classifyRequest input = ⟨[], "unable to classify"⟩ := by
  have hc : classifyCandidates input = [] := by
    unfold classifyCandidates
    have hf : commandPatterns.filter
        (fun p => p.keywords.any (fun kw => isSubstrOf kw.toList (lowerChars input))) = [] := by
      apply List.filter_eq_nil_iff.mpr
      intro p hp hany
      obtain ⟨kw, hkw, hsub⟩ := List.any_eq_true.mp hany
      have hall := List.all_eq_true.mp (List.all_eq_true.mp h p hp) kw hkw
      simp only [Bool.not_eq_true'] at hall
      rw [hall] at hsub
      exact Bool.noConfusion hsub
    rw [hf]
    rfl
  unfold classifyRequest
  rw [hc]
  rfl

/-- Witness for C7 at the concrete unmatched input "zzz". -/
theorem unrecognized_input_unable_to_classify_witness :
    commandPatterns.all
        (fun p => p.keywords.all
          (fun kw => !(isSubstrOf kw.toList (lowerChars "zzz")))) = true ∧
      classifyRequest "zzz" = ⟨[], "unable to classify"⟩ :=
  ⟨by decide, unrecognized_input_unable_to_classify "zzz" (by decide)⟩

/-- Claim C2: execution is gated on the safety tag — every executed command is
flagged safe or was explicitly confirmed by the caller, and a dangerous
command is reported to the user but never executed. -/
theorem execution_gated_on_safety (cands : List (String × SafetyLevel)) (confirmed : Bool) :
    (∀ c ∈ (executeCommandGate cands confirmed).executed,
        c.2 = SafetyLevel.safe ∨ confirmed = true) ∧
      ∀ c ∈ cands, c.2 = SafetyLevel.dangerous →
        c ∈ (executeCommandGate cands confirmed).reported ∧
          c ∉ (executeCommandGate cands confirmed).executed := by
  constructor
  · intro c hc
    have hpred := (List.mem_filter.mp hc).2
    simp only [Bool.or_eq_true, beq_iff_eq, Bool.and_eq_true, Bool.not_eq_true',
      beq_eq_false_iff_ne] at hpred
    rcases hpred with h1 | h1
    · exact Or.inl h1
    · exact Or.inr h1.1
  · intro c hc hd
    constructor
    · exact List.mem_filter.mpr ⟨hc, by simp [hd]⟩
    · intro hmem
      have hpred := (List.mem_filter.mp hmem).2
      rw [hd] at hpred
      simp at hpred

/-- Witness for C2 at a concrete candidate list with all three safety
levels and an unconfirmed caller. -/
theorem execution_gated_on_safety_witness :
    (∀ c ∈ (executeCommandGate
          [("ps aux", SafetyLevel.safe), ("rm -rf", SafetyLevel.dangerous)] false).executed,
        c.2 = SafetyLevel.safe ∨ false = true) ∧
      ∀ c ∈ [("ps aux", SafetyLevel.safe), ("rm -rf", SafetyLevel.dangerous)],
        c.2 = SafetyLevel.dangerous →
          c ∈ (executeCommandGate
              [("ps aux", SafetyLevel.safe), ("rm -rf", SafetyLevel.dangerous)] false).reported ∧
            c ∉ (executeCommandGate
              [("ps aux", SafetyLevel.safe), ("rm -rf", SafetyLevel.dangerous)] false).executed :=
  execution_gated_on_safety [("ps aux", SafetyLevel.safe), ("rm -rf", SafetyLevel.dangerous)] false

/-- Claim C3: for a fixed session start/end, the derived status is monotone in
the evaluation time: it only ever advances along upcoming → ongoing →
completed, never backwards. -/
theorem derived_status_monotone (s e t1 t2 : Nat) (h : t1 ≤ t2) :
    statusRank (deriveStatus s e t1) ≤ statusRank (deriveStatus s e t2) := by
  unfold deriveStatus
  split_ifs <;> simp [statusRank] <;> omega

/-- Witness for C3 at a session running from minute 600 to 720, evaluated at
minutes 500 and 900. -/
theorem derived_status_monotone_witness :
    500 ≤ 900 ∧
      statusRank (deriveStatus 600 720 500) ≤ statusRank (deriveStatus 600 720 900) :=
  ⟨by decide, derived_status_monotone 600 720 500 900 (by decide)⟩

/-- Claim C4: the genre-filtered jam-session listing contains exactly the
stored sessions whose genre set intersects the filter. -/
theorem filterByGenre_exact (sessions : List JamSession) (genre : String) (s : JamSession) :
    s ∈ filterByGenre sessions genre ↔ s ∈ sessions ∧ genre ∈ s.genres := by
  simp [filterByGenre, List.mem_filter, List.elem_iff]

/-- Helper: a freshly created record is read back unchanged through the keyed
store. -/
theorem getRecord_createRecord {α : Type} (db : List (String × α)) (id : String) (r : α) :
    getRecord (createRecord db id r) id = some r := by
  unfold getRecord createRecord
  rw [List.find?_cons_of_pos]
  · rfl
  · simp

/-- Claim C6: for each record type — projects, enhancements, jam sessions,
playlists, deployment records — creating a record and reading it back through
the store, with no intervening mutation, returns the record unchanged. -/
theorem crud_create_read_round_trip :
    (∀ (db : List (String × Project)) (id : String) (r : Project),
        getRecord (createRecord db id r) id = some r) ∧
      (∀ (db : List (String × Enhancement)) (id : String) (r : Enhancement),
        getRecord (createRecord db id r) id = some r) ∧
      (∀ (db : List (String × JamSession)) (id : String) (r : JamSession),
        getRecord (createRecord db id r) id = some r) ∧
      (∀ (db : List (String × Playlist)) (id : String) (r : Playlist),
        getRecord (createRecord db id r) id = some r) ∧
      (∀ (db : List (String × DeploymentRecord)) (id : String) (r : DeploymentRecord),
        getRecord (createRecord db id r) id = some r) :=
  ⟨fun db id r => getRecord_createRecord db id r,
   fun db id r => getRecord_createRecord db id r,
   fun db id r => getRecord_createRecord db id r,
   fun db id r => getRecord_createRecord db id r,
   fun db id r => getRecord_createRecord db id r⟩

/-- Counterexample to C5: when the submission's response comes back non-ok
(`response.ok` false), `handleCreateJamSession` shows no alert at all, so not
every outcome produces a user-visible success or failure alert. -/
theorem create_jam_session_alert_counterexample :
    (handleCreateJamSession ⟨true, emptyJamForm, false⟩ SubmitOutcome.httpError).2.alerts = [] :=
  rfl

/-- Claim C5 as amended: submitting the form always performs exactly one
submission network call; an ok response produces the success alert and one
session-list refresh, a thrown error produces the failure alert, and a non-ok
HTTP response produces no alert and no refresh; loading is cleared on every
outcome. -/
theorem create_jam_session_effects (st : MusicJamFormState) :
    (∀ o, (handleCreateJamSession st o).2.posts = 1) ∧
      (handleCreateJamSession st SubmitOutcome.okResp).2.alerts =
        ["🎸 Jam session created successfully!"] ∧
      (handleCreateJamSession st SubmitOutcome.okResp).2.refreshes = 1 ∧
      (handleCreateJamSession st SubmitOutcome.netError).2.alerts =
        ["Failed to create jam session!"] ∧
      (handleCreateJamSession st SubmitOutcome.httpError).2.alerts = [] ∧
      (handleCreateJamSession st SubmitOutcome.httpError).2.refreshes = 0 ∧
      (handleCreateJamSession st SubmitOutcome.netError).2.refreshes = 0 ∧
      ∀ o, (handleCreateJamSession st o).1.loading = false := by
  refine ⟨fun o => ?_, rfl, rfl, rfl, rfl, rfl, rfl, fun o => ?_⟩ <;> cases o <;> rfl

/-- Claim C8: each top-level fetch handler is error-atomic — a failed fetch
leaves the displayed data unchanged, and the initial loading flag is cleared
by `fetchEmpireOverview` on both the success and the failure branch. -/
theorem fetch_handlers_error_atomic (st : AppState) :
    fetchEmpireOverview st FetchResult.failure = { st with loading := false } ∧
      (∀ d, (fetchEmpireOverview st (FetchResult.success d)).loading = false) ∧
      (fetchEmpireOverview st FetchResult.failure).empireStatus = st.empireStatus ∧
      fetchProjects st FetchResult.failure = st ∧
      fetchEnhancements st FetchResult.failure = st ∧
      fetchRepositories st FetchResult.failure = st :=
  ⟨rfl, fun _ => rfl, rfl, rfl, rfl, rfl⟩

/-- Claim C9: when every enhancement's implementation status is planned,
implementing, or deployed, the three Deployment Center quick-action counts
partition the list — their sum is the total number of enhancements. -/
theorem deployment_counts_partition (es : List Enhancement)
    (h : ∀ e ∈ es, e.implementationStatus = "planned" ∨
        e.implementationStatus = "implementing" ∨ e.implementationStatus = "deployed") :
    countByStatus es "planned" + countByStatus es "implementing" +
      countByStatus es "deployed" = es.length := by
  induction es with
  | nil => rfl
  | cons e t ih =>
    have he := h e (List.mem_cons_self e t)
    have iht := ih (fun x hx => h x (List.mem_cons_of_mem e hx))
    simp only [countByStatus, List.filter_cons, List.length_cons] at *
    rcases he with h1 | h1 | h1 <;> rw [h1] <;> simp <;> omega

/-- Witness for C9 at a concrete four-element enhancement list. -/
theorem deployment_counts_partition_witness :
    (∀ e ∈ sampleEnhancements, e.implementationStatus = "planned" ∨
        e.implementationStatus = "implementing" ∨ e.implementationStatus = "deployed") ∧
      countByStatus sampleEnhancements "planned" + countByStatus sampleEnhancements "implementing" +
        countByStatus sampleEnhancements "deployed" = sampleEnhancements.length :=
  ⟨by decide, deployment_counts_partition sampleEnhancements (by decide)⟩

/-- Helper: toggling a genre already in the selection removes its
occurrences. -/
theorem toggle_of_mem (gs : List String) (g : String) (hg : g ∈ gs) :
    handleGenreToggle gs g = gs.filter (fun x => x != g) := by
  simp [handleGenreToggle, hg]

/-- Helper: toggling a genre absent from the selection appends it. -/
theorem toggle_of_not_mem (gs : List String) (g : String) (hg : g ∉ gs) :
    handleGenreToggle gs g = gs ++ [g] := by
  simp [handleGenreToggle, hg]

/-- Claim C10: on a duplicate-free selection, the genre toggle adds an absent
genre, removes every occurrence of a present one, keeps the list
duplicate-free, and toggling the same genre twice restores the original
selection as a set. -/
theorem genre_toggle_set_involution (gs : List String) (g : String) (h : gs.Nodup) :
    (g ∉ gs → handleGenreToggle gs g = gs ++ [g]) ∧
      (g ∈ gs → g ∉ handleGenreToggle gs g) ∧
      (handleGenreToggle gs g).Nodup ∧
      ∀ x, x ∈ handleGenreToggle (handleGenreToggle gs g) g ↔ x ∈ gs := by
  by_cases hg : g ∈ gs
  · have ht : handleGenreToggle gs g = gs.filter (fun x => x != g) :=
      toggle_of_mem gs g hg
    have hnotin : g ∉ handleGenreToggle gs g := by
      rw [ht]
      simp [List.mem_filter]
    refine ⟨fun hng => absurd hg hng, fun _ => hnotin, ?_, ?_⟩
    · rw [ht]
      exact h.filter _
    · have ht2 : handleGenreToggle (handleGenreToggle gs g) g =
          handleGenreToggle gs g ++ [g] :=
        toggle_of_not_mem (handleGenreToggle gs g) g hnotin
      intro x
      rw [ht2, ht]
      simp only [List.mem_append, List.mem_filter, List.mem_singleton, bne_iff_ne, ne_eq]
      constructor
      · rintro (⟨hx, _⟩ | rfl)
        · exact hx
        · exact hg
      · intro hx
        by_cases hxg : x = g
        · exact Or.inr hxg
        · exact Or.inl ⟨hx, hxg⟩
  · have ht : handleGenreToggle gs g = gs ++ [g] := toggle_of_not_mem gs g hg
    refine ⟨fun _ => ht, fun hgin => absurd hgin hg, ?_, ?_⟩
    · rw [ht, List.nodup_append]
      refine ⟨h, List.nodup_singleton g, ?_⟩
      intro a ha hsing
      rw [List.mem_singleton] at hsing
      exact hg (hsing ▸ ha)
    · have hg2 : g ∈ handleGenreToggle gs g := by
        rw [ht]
        simp
      have ht2 : handleGenreToggle (handleGenreToggle gs g) g =
          (handleGenreToggle gs g).filter (fun x => x != g) :=
        toggle_of_mem (handleGenreToggle gs g) g hg2
      intro x
      rw [ht2, ht]
      simp only [List.mem_filter, List.mem_append, List.mem_singleton, bne_iff_ne, ne_eq]
      constructor
      · rintro ⟨hx | rfl, hne⟩
        · exact hx
        · exact absurd rfl hne
      · intro hx
        exact ⟨Or.inl hx, fun hxg => hg (hxg ▸ hx)⟩

/-- Witness for C10 at the concrete selection ["rock", "jazz"] and genre
"jazz". -/
theorem genre_toggle_set_involution_witness :
    (["rock", "jazz"] : List String).Nodup ∧
      (("jazz" ∉ (["rock", "jazz"] : List String) →
          handleGenreToggle ["rock", "jazz"] "jazz" = ["rock", "jazz"] ++ ["jazz"]) ∧
        ("jazz" ∈ (["rock", "jazz"] : List String) →
          "jazz" ∉ handleGenreToggle ["rock", "jazz"] "jazz") ∧
        (handleGenreToggle ["rock", "jazz"] "jazz").Nodup ∧
        ∀ x, x ∈ handleGenreToggle (handleGenreToggle ["rock", "jazz"] "jazz") "jazz" ↔
          x ∈ (["rock", "jazz"] : List String)) :=
  ⟨by decide, genre_toggle_set_involution ["rock", "jazz"] "jazz" (by decide)⟩
